import Mathlib

/-!
Verification of the note-aggregation and rollup pipeline of the obsidian-agent
repository (vault_writer.py, templates.py, config.py) and of the daily-standup
section parser (standup.py).

Documents are modelled as lists of characters (type Str below).  Python string
operations used by the source (str.strip, str.split, str.splitlines,
str.startswith, str.lstrip) are modelled character by character, and the two
regular expressions of vault_writer.py are modelled by explicit first-occurrence
scanners with the same semantics:

  re.search(rf"## {header}\n(.*?)(?=\n## |\Z)", content, re.DOTALL)

finds the first occurrence of the marker "## {header}\n" and captures the
shortest following run of characters after which either "\n## " follows or the
document ends; this is exactly splitAtFirst / takeUntil below.  All definitions
are executable and decidable on concrete documents.
-/

/-- Documents and strings of the Python source, modelled as lists of characters. -/
abbrev Str := List Char

/-- Python whitespace (the default set stripped by str.strip and matched by
the regex class backslash-s for ASCII text). -/
def isWS (c : Char) : Bool :=
  c == ' ' || c == '\t' || c == '\n' || c == '\r' || c == '\x0b' || c == '\x0c'

/-- Python str.strip with no arguments: remove whitespace from both ends. -/
def pstrip (s : Str) : Str :=
  ((s.dropWhile isWS).reverse.dropWhile isWS).reverse

/-- Python s.split(sep) for a single newline separator: content.split("\n"). -/
def splitNL : Str → List Str
  | [] => [[]]
  | c :: rest =>
    if c = '\n' then [] :: splitNL rest
    else
      match splitNL rest with
      | [] => [[c]]
      | l :: ls => (c :: l) :: ls

/-- Python str.splitlines for documents whose only line separator is the
newline character (the only separator the rendered documents contain):
like split("\n") but an empty string gives no lines and a trailing
newline produces no trailing empty line. -/
def splitLines (s : Str) : List Str :=
  if s = [] then []
  else if s.getLast? = some '\n' then splitNL s.dropLast
  else splitNL s

/-- Python str.lower, character by character (ASCII text in this repository). -/
def toLowerStr (s : Str) : Str := s.map Char.toLower

/-- Python "\n".join(items). -/
def joinNL (items : List Str) : Str := List.intercalate [ '\n' ] items

/-- Locate the first occurrence of a marker in a document: returns the text
before the first occurrence and the text after it.  This is the search part
of re.search for the patterns of vault_writer.py, whose variable parts are
plain text. -/
def splitAtFirst (marker : Str) : Str → Option (Str × Str)
  | [] => none
  | c :: rest =>
    if List.isPrefixOf marker (c :: rest) then
      some ([], List.drop marker.length (c :: rest))
    else
      match splitAtFirst marker rest with
      | some (pre, post) => some (c :: pre, post)
      | none => none

/-- Does one of the terminator strings start at this position? -/
def stopsAt (terms : List Str) (s : Str) : Bool :=
  terms.any (fun t => List.isPrefixOf t s)

/-- The lazy capture group (.*?) followed by a lookahead for one of the
terminator strings (or end of document): take characters until the first
position where a terminator begins, or to the end. -/
def takeUntil (terms : List Str) : Str → Str
  | [] => []
  | c :: rest =>
    if stopsAt terms (c :: rest) then []
    else c :: takeUntil terms rest

/-! ### Generic lemmas about the scanners -/

/-- Bool test: scanning the marker against a text mismatches strictly inside
the text (so no extension of the text can make the marker a prefix). -/
def mismatchWithin : Str → Str → Bool
  | _, [] => false
  | [], _ => false
  | m :: ms, c :: cs => if m == c then mismatchWithin ms cs else true

theorem isPrefixOf_append_false {t a : Str} (h : mismatchWithin t a = true) :
    ∀ z, List.isPrefixOf t (a ++ z) = false := by
  induction a generalizing t with
  | nil => cases t <;> simp [mismatchWithin] at h
  | cons c cs ih =>
    intro z
    cases t with
    | nil => simp [mismatchWithin] at h
    | cons m ms =>
      simp only [mismatchWithin] at h
      by_cases hmc : m = c
      · simp only [hmc, beq_self_eq_true, if_true] at h
        simp [List.cons_append, List.isPrefixOf, ih h]
      · simp [List.cons_append, List.isPrefixOf, beq_eq_false_iff_ne.mpr hmc]

theorem isPrefixOf_append_true {t a : Str} (h : List.isPrefixOf t a = true) :
    ∀ z, List.isPrefixOf t (a ++ z) = true := by
  intro z
  rw [List.isPrefixOf_iff_prefix] at h ⊢
  exact h.trans (List.prefix_append a z)

/-- No occurrence of the marker starts inside the text, whatever follows it. -/
def BlocksAll (m a : Str) : Prop :=
  ∀ i z, i < a.length → List.isPrefixOf m (List.drop i a ++ z) = false

theorem blocksAll_append {m a b : Str} (ha : BlocksAll m a) (hb : BlocksAll m b) :
    BlocksAll m (a ++ b) := by
  intro i z hi
  rw [List.drop_append_eq_append_drop]
  rcases Nat.lt_or_ge i a.length with h | h
  · rw [List.append_assoc]
    exact ha i _ h
  · rw [List.drop_eq_nil_of_le h, List.nil_append]
    exact hb (i - a.length) z (by rw [List.length_append] at hi; omega)

theorem blocksAll_of_head_not_mem {m a : Str} {c : Char} (hm : m = c :: m.tail)
    (hc : c ∉ a) : BlocksAll m a := by
  intro i z hi
  have hne : a.drop i ≠ [] := by
    intro hnil
    have := List.drop_eq_nil_iff.mp hnil
    omega
  obtain ⟨d, ds, hds⟩ := List.exists_cons_of_ne_nil hne
  have hd : d ∈ a := by
    have : d ∈ a.drop i := by rw [hds]; exact List.mem_cons_self d ds
    exact List.mem_of_mem_drop this
  have hdc : c ≠ d := fun h => hc (h ▸ hd)
  rw [hds, hm]
  simp [List.cons_append, List.isPrefixOf, beq_eq_false_iff_ne.mpr hdc]

/-- Decidable sufficient condition for BlocksAll on a concrete chunk. -/
def mismatchAll (m a : Str) : Bool :=
  (List.range a.length).all (fun i => mismatchWithin m (List.drop i a))

theorem blocksAll_of_mismatchAll {m a : Str} (h : mismatchAll m a = true) :
    BlocksAll m a := by
  intro i z hi
  have hm : mismatchWithin m (List.drop i a) = true := by
    have := List.all_eq_true.mp h i (List.mem_range.mpr hi)
    simpa using this
  exact isPrefixOf_append_false hm z

theorem splitAtFirst_skip {m : Str} {a : Str} (h : BlocksAll m a) (z : Str) :
    splitAtFirst m (a ++ z) =
      Option.map (fun pr => (a ++ pr.1, pr.2)) (splitAtFirst m z) := by
  induction a with
  | nil =>
    simp only [List.nil_append]
    cases hz : splitAtFirst m z with
    | none => simp
    | some pr => cases pr; simp
  | cons c cs ih =>
    have h0 : List.isPrefixOf m (c :: (cs ++ z)) = false := by
      have := h 0 z (by simp)
      simpa using this
    rw [List.cons_append, splitAtFirst, if_neg (by simp only [h0]; simp)]
    have hcs : BlocksAll m cs := by
      intro i z' hi
      have := h (i + 1) z' (by simp; omega)
      simpa using this
    rw [ih hcs]
    cases hz : splitAtFirst m z with
    | none => simp
    | some pr => cases pr; simp

theorem splitAtFirst_here {m : Str} (hm : m ≠ []) (z : Str) :
    splitAtFirst m (m ++ z) = some ([], z) := by
  obtain ⟨c, cs, rfl⟩ := List.exists_cons_of_ne_nil hm
  rw [List.cons_append, splitAtFirst]
  rw [if_pos (by
    rw [← List.cons_append]
    exact List.isPrefixOf_iff_prefix.mpr (List.prefix_append _ _))]
  rw [← List.cons_append, List.drop_left]

theorem splitAtFirst_locate {m pre suf : Str} (hm : m ≠ []) (h : BlocksAll m pre) :
    splitAtFirst m (pre ++ (m ++ suf)) = some (pre, suf) := by
  rw [splitAtFirst_skip h, splitAtFirst_here hm]
  simp

theorem splitAtFirst_none {m : Str} {s : Str} (h : BlocksAll m s) :
    splitAtFirst m s = none := by
  have := splitAtFirst_skip h []
  rw [List.append_nil] at this
  rw [this]
  simp [splitAtFirst]

theorem blocksAll_cons_elim {m : Str} {c : Char} {cs : Str}
    (h : BlocksAll m (c :: cs)) : BlocksAll m cs := by
  intro i z hi
  have := h (i + 1) z (by simp; omega)
  simpa using this

theorem takeUntil_skip {terms : List Str} {a : Str}
    (h : ∀ t ∈ terms, BlocksAll t a) (z : Str) :
    takeUntil terms (a ++ z) = a ++ takeUntil terms z := by
  induction a with
  | nil => simp
  | cons c cs ih =>
    have hstop : stopsAt terms (c :: (cs ++ z)) = false := by
      rw [stopsAt]
      apply List.any_eq_false.mpr
      intro t ht
      have h1 := h t ht 0 z (by simp)
      simp only [List.drop_zero, List.cons_append] at h1
      simp [h1]
    rw [List.cons_append, takeUntil, if_neg (by simp only [hstop]; simp)]
    rw [ih (fun t ht => blocksAll_cons_elim (h t ht))]
    rfl

theorem takeUntil_stop {terms : List Str} {s : Str} (h : stopsAt terms s = true) :
    takeUntil terms s = [] := by
  cases s with
  | nil => rfl
  | cons c cs => rw [takeUntil, if_pos h]

theorem dropWhile_eq_nil_of_all {p : Char → Bool} {b : Str}
    (hb : ∀ c ∈ b, p c = true) : List.dropWhile p b = [] := by
  induction b with
  | nil => rfl
  | cons c cs ih =>
    rw [List.dropWhile_cons, if_pos (hb c (List.mem_cons_self c cs))]
    exact ih (fun x hx => hb x (List.mem_cons_of_mem c hx))

theorem pstrip_append_ws {a b : Str} (hb : ∀ c ∈ b, isWS c = true) :
    pstrip (a ++ b) = pstrip a := by
  have hrev : ∀ c ∈ b.reverse, isWS c = true := fun c hc => hb c (List.mem_reverse.mp hc)
  unfold pstrip
  rw [List.dropWhile_append]
  by_cases hempty : (List.dropWhile isWS a).isEmpty
  · rw [if_pos hempty, dropWhile_eq_nil_of_all hb]
    rw [List.isEmpty_iff] at hempty
    rw [hempty]
  · rw [if_neg hempty, List.reverse_append, List.dropWhile_append]
    rw [if_pos (by rw [List.isEmpty_iff]; exact dropWhile_eq_nil_of_all hrev)]

/-! ### Data model: the SessionExtract dataclass of extractor.py -/

/-- A group of related completed items under a heading (extractor.py CompletedGroup). -/
structure CompletedGroup where
  heading : Str
  items : List Str
deriving DecidableEq

/-- A GitHub issue reference with metadata (extractor.py IssueRef). -/
structure IssueRef where
  number : Str
  title : Str
  effort : Str := []
  status : Str := "Pending".data
deriving DecidableEq

/-- A git commit reference (extractor.py CommitRef). -/
structure CommitRef where
  hash : Str
  message : Str
deriving DecidableEq

/-- Extracted project state from a coding session (extractor.py SessionExtract).
Every sequence field defaults to empty, as in the dataclass. -/
structure SessionExtract where
  status : Str
  phase : Str
  summary : Str
  completed : List Str := []
  completed_groups : List CompletedGroup := []
  issues : List IssueRef := []
  commits : List CommitRef := []
  next_steps : List Str := []
  decisions : List Str := []
  blockers : List Str := []
  github_refs : List Str := []
  knowledge : List Str := []
  notes : List Str := []
deriving DecidableEq

/-! ### templates.py -/

/-- The literal empty marker used by the list renderers. -/
def noneLit : Str := "_None_".data

/-- templates._bullet_list with the default empty marker. -/
def bulletList (items : List Str) : Str :=
  if items = [] then noneLit
  else joinNL (items.map (fun i => "- ".data ++ i))

/-- templates._checkbox_list with the default empty marker. -/
def checkboxList (items : List Str) : Str :=
  if items = [] then noneLit
  else joinNL (items.map (fun i => "- [ ] ".data ++ i))

/-- The em-dash placeholder of templates._first_or. -/
def emDash : Str := "—".data

/-- templates._first_or. -/
def firstOr (items : List Str) : Str :=
  match items with
  | [] => emDash
  | x :: _ => x

/-- templates._render_completed_section. -/
def renderCompletedSection (extract : SessionExtract) : Str :=
  if extract.completed_groups ≠ [] then
    joinNL ((extract.completed_groups.map (fun g =>
      ("\n### ".data ++ g.heading) :: g.items.map (fun i => "- [x] ".data ++ i))).flatten)
  else if extract.completed ≠ [] then
    joinNL (extract.completed.map (fun i => "- [x] ".data ++ i))
  else noneLit

/-- The status-icon dictionary of templates._render_issues_table maps each of
its three keys to itself and falls back to the status itself, so it is the
identity; the if-chain mirrors the dict lookup. -/
def statusIcon (s : Str) : Str :=
  if s = "Done".data then "Done".data
  else if s = "Pending".data then "Pending".data
  else if s = "In Progress".data then "In Progress".data
  else s

/-- templates._render_issues_table. -/
def renderIssuesTable (extract : SessionExtract) : Str :=
  if extract.issues = [] then noneLit
  else joinNL (( "| Issue | Title | Effort | Status |".data) ::
    ( "|-------|-------|--------|--------|".data) ::
    extract.issues.map (fun i => "| ".data ++ i.number ++ " | ".data ++ i.title ++
      " | ".data ++ i.effort ++ " | ".data ++ statusIcon i.status ++ " |".data))

/-- templates._render_commits_table. -/
def renderCommitsTable (extract : SessionExtract) : Str :=
  if extract.commits = [] then noneLit
  else joinNL (( "| Commit | Description |".data) ::
    ( "|--------|-------------|".data) ::
    extract.commits.map (fun c => "| ".data ++ c.hash ++ " | ".data ++ c.message ++ " |".data))

def orUnknown (s : Str) : Str := if s = [] then "_Unknown_".data else s

def orNotSpecified (s : Str) : Str := if s = [] then "_Not specified_".data else s

def orNoSummary (s : Str) : Str := if s = [] then "_No summary_".data else s

/-- The chunks of STATUS_TEMPLATE between the interpolation slots. -/
def stA : Str := "# ".data
def stB : Str := "\n\n> Last updated: ".data
def stC : Str := "\n\n## Status\n".data
def stD : Str := "\n\n## Phase\n".data
def stE : Str := "\n\n## Completed Today\n".data
def stF : Str := "\n\n## Issues\n".data
def stG : Str := "\n\n## Follow-up\n".data
def stH : Str := "\n\n## Decisions\n".data
def stI : Str := "\n\n## Blockers\n".data
def stJ : Str := "\n\n## GitHub References\n".data
def stK : Str := "\n\n## Notes\n".data
def stEnd : Str := "\n".data

/-- templates.render_status: STATUS_TEMPLATE.format(...) with the updated
timestamp passed explicitly (the source defaults it to the current time). -/
def renderStatus (project_name : Str) (extract : SessionExtract) (updated : Str) : Str :=
  stA ++ (project_name ++ (stB ++ (updated ++ (stC ++ (orUnknown extract.status ++
    (stD ++ (orNotSpecified extract.phase ++ (stE ++ (renderCompletedSection extract ++
    (stF ++ (renderIssuesTable extract ++ (stG ++ (checkboxList extract.next_steps ++
    (stH ++ (bulletList extract.decisions ++ (stI ++ (bulletList extract.blockers ++
    (stJ ++ (bulletList extract.github_refs ++ (stK ++ (bulletList extract.notes ++
    stEnd)))))))))))))))))))))

/-- templates.render_dashboard_row. -/
def renderDashboardRow (project_name : Str) (extract : SessionExtract) (updated : Str) : Str :=
  "| ".data ++ (project_name ++ (" | ".data ++ ((if extract.status = [] then emDash else extract.status) ++
    (" | ".data ++ ((if extract.phase = [] then emDash else extract.phase) ++
    (" | ".data ++ (firstOr extract.next_steps ++ (" | ".data ++ (updated ++ " |".data)))))))))

/-- The placeholder row rendered when there are no project rows. -/
def noProjectsRow : Str := "| _No projects yet_ | | | | |".data

def dbA : Str := "# Dashboard\n\n> Auto-generated: ".data
def dbB : Str := "\n\n| Project | Status | Phase | Next Step | Last Updated |\n|---------|--------|-------|-----------|--------------|\n".data

/-- templates.render_dashboard with the generated timestamp passed explicitly. -/
def renderDashboard (rows : List Str) (updated : Str) : Str :=
  dbA ++ (updated ++ (dbB ++ ((if rows = [] then noProjectsRow else joinNL rows) ++ stEnd)))

/-- templates.render_daily_header: DAILY_HEADER_TEMPLATE.format(date=date). -/
def renderDailyHeader (date : Str) : Str :=
  "# Daily Log: ".data ++ date ++ "\n".data

/-- The comma-joined GitHub refs line value of render_daily_entry. -/
def commaJoin (refs : List Str) : Str :=
  if refs = [] then noneLit else List.intercalate ( ", ".data ) refs

def daA : Str := "\n---\n\n### ".data
def daDash : Str := " — ".data
def daSummary : Str := "\n\n**Summary**: ".data
def daCommits : Str := "\n\n## Commits\n".data
def daRefs : Str := "\n\n**GitHub Refs**: ".data
def daKnowledge : Str := "\n\n**Knowledge**:\n".data

/-- templates.render_daily_entry: DAILY_ENTRY_TEMPLATE.format(...) with the
time passed explicitly (the source defaults it to the current time). -/
def renderDailyEntry (project_name : Str) (extract : SessionExtract) (time : Str) : Str :=
  daA ++ (time ++ (daDash ++ (project_name ++ (daSummary ++ (orNoSummary extract.summary ++
    (stE ++ (renderCompletedSection extract ++ (stF ++ (renderIssuesTable extract ++
    (daCommits ++ (renderCommitsTable extract ++ (stH ++ (bulletList extract.decisions ++
    (stI ++ (bulletList extract.blockers ++ (stG ++ (checkboxList extract.next_steps ++
    (stK ++ (bulletList extract.notes ++ (daRefs ++ (commaJoin extract.github_refs ++
    (daKnowledge ++ (bulletList extract.knowledge ++ stEnd)))))))))))))))))))))))

/-! ### vault_writer.py: parsing STATUS.md back (parse_status_file) -/

def hdrStatus : Str := "Status".data
def hdrPhase : Str := "Phase".data
def hdrNextSteps : Str := "Next Steps".data
def hdrDecisions : Str := "Decisions".data
def hdrBlockers : Str := "Blockers".data
def hdrGithubRefs : Str := "GitHub References".data
def hdrCompleted : Str := "Completed".data

/-- The marker searched by the section regex of parse_status_file. -/
def sectionMarker (header : Str) : Str := "## ".data ++ header ++ "\n".data

/-- The lookahead terminator of the section regex. -/
def nlHH : Str := "\n## ".data

/-- The matched group(1) of the section regex, already stripped: none when the
heading does not occur in the document. -/
def sectionBody (header content : Str) : Option Str :=
  (splitAtFirst (sectionMarker header) content).map (fun pr => pstrip (takeUntil [nlHH] pr.2))

/-- The nested helper section_text of parse_status_file: empty string when the
heading is missing or when the stripped body starts with an underscore. -/
def sectionText (header content : Str) : Str :=
  ((sectionBody header content).map (fun t =>
    if t.head? = some '_' then [] else t)).getD []

/-- The nested helper section of parse_status_file: bullet lines of the
section body, with the dash-and-space prefix stripped. -/
def sectionItems (header content : Str) : List Str :=
  ((sectionBody header content).map (fun t =>
    if t = "_None_".data ∨ t = "_Unknown_".data ∨ t = "_Not specified_".data then []
    else (splitLines t).filterMap (fun l =>
      if (pstrip l).head? = some '-' then
        some (pstrip (l.dropWhile (fun c => c == '-' || c == ' ')))
      else none))).getD []

/-- vault_writer.VaultWriter.parse_status_file: parse a STATUS.md back into a
minimal SessionExtract for the dashboard. -/
def parseStatusFile (content : Str) : SessionExtract :=
  { status := sectionText hdrStatus content
    phase := sectionText hdrPhase content
    summary := []
    next_steps := sectionItems hdrNextSteps content
    decisions := sectionItems hdrDecisions content
    blockers := sectionItems hdrBlockers content
    github_refs := sectionItems hdrGithubRefs content }

/-! ### vault_writer.py: rollup aggregation -/

/-- The marker searched by the bullet-section regex of extract_section_bullets. -/
def bulletMarker (header : Str) : Str := "**".data ++ header ++ "**:\n".data

/-- The lookahead terminators of the bullet-section regex. -/
def bulletTerms : List Str := [ "\n**".data, "\n---".data, "\n###".data ]

/-- vault_writer.extract_section_bullets. -/
def extractSectionBullets (content header : Str) : List Str :=
  match splitAtFirst (bulletMarker header) content with
  | none => []
  | some pr =>
    (splitLines (pstrip (takeUntil bulletTerms pr.2))).filterMap (fun l0 =>
      let l := pstrip l0
      if List.isPrefixOf ( "- ".data ) l ∧ l ≠ "- _None_".data then
        some (pstrip (l.drop 2))
      else none)

/-- Python line.split(":", 1)[1]: everything after the first colon. -/
def afterFirstColon : Str → Str
  | [] => []
  | c :: rest => if c = ':' then rest else afterFirstColon rest

/-- Python s.split(",") on a comma separator. -/
def splitComma : Str → List Str
  | [] => [[]]
  | c :: rest =>
    if c = ',' then [] :: splitComma rest
    else
      match splitComma rest with
      | [] => [[c]]
      | l :: ls => (c :: l) :: ls

def ghRefsMarker : Str := "**GitHub Refs**:".data

/-- The GitHub-refs accumulation loop of aggregate_dailies for one document:
lines starting with the GitHub Refs marker contribute their comma-separated,
stripped, non-empty items unless the text is empty or the none marker. -/
def extractGithubRefs (content : Str) : List Str :=
  (splitLines content).foldl (fun acc line =>
    if List.isPrefixOf ghRefsMarker line then
      let refsText := pstrip (afterFirstColon line)
      if refsText ≠ [] ∧ refsText ≠ noneLit then
        acc ++ (splitComma refsText).filterMap (fun r =>
          if pstrip r ≠ [] then some (pstrip r) else none)
      else acc
    else acc) []

/-- vault_writer.dedup: deduplicate while preserving order, with the seen set
modelled as the list of already-kept items. -/
def pdedupGo (seen : List Str) : List Str → List Str
  | [] => []
  | x :: xs => if x ∈ seen then pdedupGo seen xs else x :: pdedupGo (x :: seen) xs

def pdedup (items : List Str) : List Str := pdedupGo [] items

/-! ### Dates: datetime.strptime, date.isocalendar and the week filter -/

def isLeap (y : Nat) : Bool := (y % 4 == 0 && y % 100 != 0) || y % 400 == 0

def monthDays (y m : Nat) : Nat :=
  match m with
  | 1 => 31 | 2 => if isLeap y then 29 else 28 | 3 => 31 | 4 => 30
  | 5 => 31 | 6 => 30 | 7 => 31 | 8 => 31 | 9 => 30 | 10 => 31
  | 11 => 30 | 12 => 31 | _ => 0

/-- Ordinal day of the year, 1-based. -/
def dayOfYear (y m d : Nat) : Nat :=
  d + ((List.range (m - 1)).map (fun i => monthDays y (i + 1))).sum

/-- Days of the proleptic Gregorian calendar strictly before January 1 of
year y (year 1 is the first year). -/
def daysBeforeYear (y : Nat) : Nat :=
  365 * (y - 1) + ((y - 1) / 4 + (y - 1) / 400) - (y - 1) / 100

/-- ISO weekday, Monday = 1 .. Sunday = 7 (January 1 of year 1 is a Monday). -/
def isoWeekday (y m d : Nat) : Nat :=
  (daysBeforeYear y + dayOfYear y m d - 1) % 7 + 1

/-- Number of ISO weeks in a year: 53 when the year starts or ends on a
Thursday, else 52. -/
def weeksInYear (y : Nat) : Nat :=
  if isoWeekday y 1 1 = 4 ∨ isoWeekday y 12 31 = 4 then 53 else 52

/-- The ISO week number of a date, as returned by date.isocalendar()[1]. -/
def isoWeekNumber (y m d : Nat) : Nat :=
  let wk := (dayOfYear y m d + 10 - isoWeekday y m d) / 7
  if wk = 0 then weeksInYear (y - 1)
  else if weeksInYear y < wk then 1
  else wk

def digitVal (c : Char) : Option Nat :=
  if '0' ≤ c ∧ c ≤ '9' then some (c.toNat - '0'.toNat) else none

/-- datetime.strptime(stem, "%Y-%m-%d") for the canonical zero-padded
YYYY-MM-DD form of the daily filenames: the year, month and day digits with a
real-calendar validity check (strptime raises ValueError otherwise). -/
def parseDate (stem : Str) : Option (Nat × Nat × Nat) :=
  match stem with
  | [y3, y2, y1, y0, s1, m1, m0, s2, d1, d0] =>
    if s1 = '-' ∧ s2 = '-' then
      match digitVal y3, digitVal y2, digitVal y1, digitVal y0,
            digitVal m1, digitVal m0, digitVal d1, digitVal d0 with
      | some a, some b, some c, some d, some e, some f, some g, some k =>
        let y := 1000 * a + 100 * b + 10 * c + d
        let m := 10 * e + f
        let dd := 10 * g + k
        if 1 ≤ y ∧ 1 ≤ m ∧ m ≤ 12 ∧ 1 ≤ dd ∧ dd ≤ monthDays y m then
          some (y, m, dd)
        else none
      | _, _, _, _, _, _, _, _ => none
    else none
  | _ => none

def natToStr (n : Nat) : Str := (Nat.repr n).data

/-- Python f-string 02d formatting for the week number. -/
def twoPad (n : Nat) : Str := if n < 10 then '0' :: natToStr n else natToStr n

/-- The week label the code computes for a file date:
f-string of dt.year (the calendar year), a dash, W, and the zero-padded ISO
week number dt.isocalendar()[1]. -/
def fileWeekLabel (y m d : Nat) : Str :=
  natToStr y ++ ('-' :: ('W' :: twoPad (isoWeekNumber y m d)))

/-- Modelled from the claim and spec words: the ISO year a date belongs to
(the year of its ISO week), used only to state the claimed label. -/
def isoYearOf (y m d : Nat) : Nat :=
  let wk := (dayOfYear y m d + 10 - isoWeekday y m d) / 7
  if wk = 0 then y - 1
  else if weeksInYear y < wk then y + 1
  else y

/-- Modelled from the claim and spec words: the label YYYY-Www built from the
ISO year and ISO week number of the date. -/
def isoWeekLabelClaim (y m d : Nat) : Str :=
  natToStr (isoYearOf y m d) ++ ('-' :: ('W' :: twoPad (isoWeekNumber y m d)))

/-- The week-filter test of aggregate_dailies: parse the filename stem as a
date (skip the file on failure) and compare the computed label with the
requested week string. -/
def weekMatches (stem week : Str) : Bool :=
  match parseDate stem with
  | some (y, m, d) => if fileWeekLabel y m d = week then true else false
  | none => false

/-- The period filter of aggregate_dailies: the week branch wins when a week
is given, else the month branch compares by string prefix, else every file
matches. -/
def periodIncluded (stem week month : Str) : Bool :=
  if week ≠ [] then weekMatches stem week
  else if month ≠ [] then List.isPrefixOf month stem
  else true

/-- The accumulated category lists of aggregate_dailies. -/
structure AggLists where
  completed : List Str
  decisions : List Str
  blockers : List Str
  github_refs : List Str
deriving DecidableEq

/-- vault_writer.VaultWriter.aggregate_dailies over the daily files given as
(filename stem, content) pairs in sorted filename order (the code iterates
sorted(daily_dir.glob("*.md"))): accumulate the three bullet categories and
the GitHub-refs lines of every file matching the period, then deduplicate
each category preserving order. -/
def aggregateDailies (files : List (Str × Str)) (week month : Str) : AggLists :=
  let r : AggLists := files.foldl (fun (acc : AggLists) (f : Str × Str) =>
    if periodIncluded f.1 week month then
      { completed := acc.completed ++ extractSectionBullets f.2 hdrCompleted
        decisions := acc.decisions ++ extractSectionBullets f.2 hdrDecisions
        blockers := acc.blockers ++ extractSectionBullets f.2 hdrBlockers
        github_refs := acc.github_refs ++ extractGithubRefs f.2 }
    else acc) ⟨[], [], [], []⟩
  ⟨pdedup r.completed, pdedup r.decisions, pdedup r.blockers, pdedup r.github_refs⟩

/-! ### vault_writer.py: write_daily and write_dashboard -/

/-- One call of VaultWriter.write_daily acting on the daily document for a
fixed project and date: if the file does not exist it is first created with
the daily header, then the rendered entry is appended.  The session is the
extract together with the time stamp rendered into the entry. -/
def writeDailyStep (project_name date : Str) (file : Option Str)
    (session : SessionExtract × Str) : Option Str :=
  some ((match file with
    | none => renderDailyHeader date
    | some s => s) ++ renderDailyEntry project_name session.1 session.2)

/-- N successive write_daily calls for the same project and date, starting
from no document. -/
def writeDailyRun (project_name date : Str) (sessions : List (SessionExtract × Str)) :
    Option Str :=
  sessions.foldl (writeDailyStep project_name date) none

/-- The dashboard rows built by VaultWriter.write_dashboard: one row per
project directory owning a STATUS.md.  Each entry is the project name with,
when the STATUS.md exists, its content and its last-modified date; project
directories without a STATUS.md contribute nothing. -/
def dashboardRows (entries : List (Str × Option (Str × Str))) : List Str :=
  entries.filterMap (fun e =>
    e.2.map (fun cd => renderDashboardRow e.1 (parseStatusFile cd.1) cd.2))

/-- VaultWriter.write_dashboard: the DASHBOARD.md content written for the
project directories listed in sorted order. -/
def writeDashboard (entries : List (Str × Option (Str × Str))) (generated : Str) : Str :=
  renderDashboard (dashboardRows entries) generated

/-! ### daily-standup standup.py: get_blockers_v2 -/

/-- Python regex match of a line against the anchored pattern for a
second-level heading: two hashes followed by at least one whitespace. -/
def isHHWs (l : Str) : Bool :=
  match l with
  | '#' :: '#' :: c :: _ => isWS c
  | _ => false

/-- Python regex match of a line against the anchored case-insensitive
Blockers heading pattern: two hashes, whitespace, then the word Blocker
(anything may follow, as the pattern is not end-anchored and the final s is
optional). -/
def isBlockersHeading (l : Str) : Bool :=
  match l with
  | '#' :: '#' :: c :: rest =>
    isWS c && List.isPrefixOf ( "blocker".data ) (toLowerStr ((c :: rest).dropWhile isWS))
  | _ => false

/-- Python regex match of a line against the dash item pattern: a dash, at
least one whitespace, and at least one further character; the result is
group(1).strip(), which equals the stripped text after the whitespace run. -/
def itemText (l : Str) : Option Str :=
  match l with
  | '-' :: c :: cs =>
    if isWS c ∧ cs ≠ [] then some (pstrip ((c :: cs).dropWhile isWS)) else none
  | _ => none

/-- The accepted empty sentinels of get_blockers_v2, compared after lower(). -/
def sentinels : List Str := [ "none".data, "(none)".data, "n/a".data ]

/-- The line loop of get_blockers_v2 with its in-section flag; a heading line
re-enters the section, any other second-level heading ends the scan. -/
def getBlockersLines : Bool → List Str → List Str
  | _, [] => []
  | inSection, l :: ls =>
    if isBlockersHeading l then getBlockersLines true ls
    else if inSection ∧ isHHWs l then []
    else if inSection then
      match itemText l with
      | some t =>
        if toLowerStr t ∈ sentinels then getBlockersLines inSection ls
        else t :: getBlockersLines inSection ls
      | none => getBlockersLines inSection ls
    else getBlockersLines inSection ls

/-- standup.get_blockers_v2 on the content of a STATUS.md document. -/
def getBlockersV2 (content : Str) : List Str :=
  getBlockersLines false (splitNL content)

/-! ### config.py: load_config vault-path resolution -/

/-- Python x or y for strings where x may be missing: None and the empty
string are falsy. -/
def pyOrStr (a : Option Str) (b : Str) : Str :=
  match a with
  | some s => if s = [] then b else s
  | none => b

/-- The vault-path resolution of config.load_config: the code evaluates
os.environ.get("OBSIDIAN_VAULT_PATH") or vault_section.get("path") or
str(platform_default_vault()); expanduser and the Path constructor do not
change which candidate is chosen. -/
def resolveVaultPath (envVaultPath tomlVaultPath : Option Str) (platformDefault : Str) : Str :=
  pyOrStr envVaultPath (pyOrStr tomlVaultPath platformDefault)

/-! ### Deduplication: first-occurrence characterisation -/

/-- Modelled from the claim words: the subsequence of first occurrences; keep
the head and delete every later item equal to it, recursively. -/
def firstOccurrenceSubseq : List Str → List Str
  | [] => []
  | x :: xs => x :: firstOccurrenceSubseq (xs.filter (fun y => decide (y ≠ x)))
termination_by l => l.length
decreasing_by
  simp only [List.length_cons]
  exact Nat.lt_succ_of_le (List.length_filter_le _ _)

theorem pdedupGo_eq_firstOcc (l : List Str) : ∀ seen,
    pdedupGo seen l = firstOccurrenceSubseq (l.filter (fun y => decide (y ∉ seen))) := by
  induction l with
  | nil => intro seen; simp [pdedupGo, firstOccurrenceSubseq]
  | cons x xs ih =>
    intro seen
    by_cases hx : x ∈ seen
    · rw [pdedupGo, if_pos hx, List.filter_cons, if_neg (by simp [hx])]
      exact ih seen
    · rw [pdedupGo, if_neg hx, List.filter_cons, if_pos (by simp [hx])]
      rw [firstOccurrenceSubseq, ih (x :: seen), List.filter_filter]
      congr 2
      apply List.filter_congr
      intro y _
      simp [List.mem_cons, not_or, Bool.and_comm]

theorem firstOcc_sublist_aux : ∀ (n : Nat) (l : List Str), l.length ≤ n →
    List.Sublist (firstOccurrenceSubseq l) l := by
  intro n
  induction n with
  | zero =>
    intro l hl
    rw [List.length_eq_zero.mp (Nat.le_zero.mp hl)]
    simp [firstOccurrenceSubseq]
  | succ n ih =>
    intro l hl
    cases l with
    | nil => simp [firstOccurrenceSubseq]
    | cons x xs =>
      rw [firstOccurrenceSubseq]
      apply List.Sublist.cons₂
      exact (ih _ (le_trans (List.length_filter_le _ _)
        (by simp at hl; omega))).trans (List.filter_sublist xs)

theorem firstOcc_sublist (l : List Str) : List.Sublist (firstOccurrenceSubseq l) l :=
  firstOcc_sublist_aux l.length l (le_refl _)

theorem mem_firstOcc_aux : ∀ (n : Nat) (l : List Str), l.length ≤ n →
    ∀ x, x ∈ firstOccurrenceSubseq l ↔ x ∈ l := by
  intro n
  induction n with
  | zero =>
    intro l hl
    rw [List.length_eq_zero.mp (Nat.le_zero.mp hl)]
    simp [firstOccurrenceSubseq]
  | succ n ih =>
    intro l hl
    cases l with
    | nil => simp [firstOccurrenceSubseq]
    | cons x xs =>
      intro y
      rw [firstOccurrenceSubseq]
      rcases eq_or_ne y x with rfl | hyx
      · simp
      · simp only [List.mem_cons, hyx, false_or]
        rw [ih _ (le_trans (List.length_filter_le _ _) (by simp at hl; omega))]
        simp [List.mem_filter, hyx]

theorem mem_firstOcc (l : List Str) : ∀ x, x ∈ firstOccurrenceSubseq l ↔ x ∈ l :=
  mem_firstOcc_aux l.length l (le_refl _)

theorem firstOcc_nodup_aux : ∀ (n : Nat) (l : List Str), l.length ≤ n →
    (firstOccurrenceSubseq l).Nodup := by
  intro n
  induction n with
  | zero =>
    intro l hl
    rw [List.length_eq_zero.mp (Nat.le_zero.mp hl)]
    simp [firstOccurrenceSubseq]
  | succ n ih =>
    intro l hl
    cases l with
    | nil => simp [firstOccurrenceSubseq]
    | cons x xs =>
      rw [firstOccurrenceSubseq]
      apply List.nodup_cons.mpr
      constructor
      · intro hx
        rw [mem_firstOcc] at hx
        simp [List.mem_filter] at hx
      · exact ih _ (le_trans (List.length_filter_le _ _) (by simp at hl; omega))

theorem firstOcc_nodup (l : List Str) : (firstOccurrenceSubseq l).Nodup :=
  firstOcc_nodup_aux l.length l (le_refl _)

/-- C6: the rollup deduplication returns exactly the subsequence of first
occurrences: it equals the first-occurrence subsequence of the input, has no
duplicate (by exact string equality), is a subsequence of the input (so the
order is the order of first appearance), and keeps exactly the set of input
strings. -/
theorem c6_dedup_first_occurrence_subsequence (l : List Str) :
    pdedup l = firstOccurrenceSubseq l ∧
    (pdedup l).Nodup ∧
    List.Sublist (pdedup l) l ∧
    (∀ x, x ∈ pdedup l ↔ x ∈ l) := by
  have h : pdedup l = firstOccurrenceSubseq l := by
    rw [pdedup, pdedupGo_eq_firstOcc]
    congr 1
    apply List.filter_eq_self.mpr
    intro a _
    simp
  exact ⟨h, h ▸ firstOcc_nodup l, h ▸ firstOcc_sublist l, fun x => h ▸ mem_firstOcc l x⟩

/-! ### C3: configuration precedence -/

/-- C3 (code bug): with both the TOML vault path and the OBSIDIAN_VAULT_PATH
environment variable set, load_config returns the environment value, not the
config-file value, contradicting the precedence stated by its own docstring
(TOML config over env vars over platform defaults) and by the spec. -/
theorem c3_env_wins_over_config_file :
    resolveVaultPath (some ( "/env/vault".data )) (some ( "/toml/vault".data ))
        ( "/home/user/obsidian/MyVault".data ) = "/env/vault".data ∧
    ( "/env/vault".data : Str) ≠ ( "/toml/vault".data : Str) := by
  constructor
  · rfl
  · decide

/-! ### C1: the rollup aggregator against the daily-entry renderer -/

/-- The extraction record of the C1 failing input. -/
def c1Extract : SessionExtract :=
  { status := "Working".data
    phase := "Build".data
    summary := "Did things".data
    completed := [ "Added login endpoint".data ]
    decisions := [ "Chose SQLite".data ]
    blockers := [ "CI flaky".data ]
    github_refs := [ "#105".data ] }

/-- The daily document produced by write_daily from c1Extract on 2026-02-01:
the header of the fresh file followed by the rendered entry. -/
def c1Daily : Str :=
  renderDailyHeader ( "2026-02-01".data ) ++
    renderDailyEntry ( "Foo".data ) c1Extract ( "10:00".data )

/-- C1 (code bug): the monthly aggregation for 2026-02 over the daily document
written by write_daily recovers none of the completed, decision, or blocker
items, even though the items are present in the document (as bullet lines of
the rendered sections); only the GitHub-refs line survives.  The aggregator
searches for sections of the form starStar-header-starStar-colon while the
daily-entry template renders second-level headings. -/
theorem c1_rollup_loses_daily_sections :
    (aggregateDailies [(( "2026-02-01".data ), c1Daily)] [] ( "2026-02".data )).completed = [] ∧
    (aggregateDailies [(( "2026-02-01".data ), c1Daily)] [] ( "2026-02".data )).decisions = [] ∧
    (aggregateDailies [(( "2026-02-01".data ), c1Daily)] [] ( "2026-02".data )).blockers = [] ∧
    (aggregateDailies [(( "2026-02-01".data ), c1Daily)] [] ( "2026-02".data )).github_refs =
      [ "#105".data ] ∧
    ( "- [x] Added login endpoint\n".data <:+: c1Daily) ∧
    ( "- Chose SQLite\n".data <:+: c1Daily) ∧
    ( "- CI flaky\n".data <:+: c1Daily) := by
  set_option maxRecDepth 100000 in decide

/-! ### C2: the week filter label -/

/-- C2 counterexample: the document 2027-01-01 lies in ISO week 2026-W53
(its ISO year is 2026), yet the week filter 2026-W53 does not match it,
because the code labels the file with the calendar year: 2027-W53. -/
theorem c2_counterexample_iso_year :
    parseDate ( "2027-01-01".data ) = some (2027, 1, 1) ∧
    isoWeekLabelClaim 2027 1 1 = "2026-W53".data ∧
    weekMatches ( "2027-01-01".data ) ( "2026-W53".data ) = false ∧
    fileWeekLabel 2027 1 1 = "2027-W53".data := by
  decide

/-- C2 (amended): for a daily document whose stem parses as a valid date, the
week filter includes it if and only if the label built from the CALENDAR year
of the date and its ISO week number equals the filter (not the ISO year, which
differs in the days around new year); the concrete spec example still holds:
2026-02-06 carries label 2026-W06 and the document 7 days later carries
2026-W07, so the W06 filter excludes it. -/
theorem c2_amended_calendar_year_label (stem week : Str) (y m d : Nat)
    (h : parseDate stem = some (y, m, d)) :
    (weekMatches stem week = true ↔ fileWeekLabel y m d = week) ∧
    fileWeekLabel 2026 2 6 = "2026-W06".data ∧
    fileWeekLabel 2026 2 13 = "2026-W07".data := by
  refine ⟨?_, by decide, by decide⟩
  rw [weekMatches, h]
  by_cases hf : fileWeekLabel y m d = week
  · simp [hf]
  · simp [hf]

/-- Witness for c2_amended_calendar_year_label at the 2026-02-06 document. -/
theorem c2_amended_calendar_year_label_witness :
    parseDate ( "2026-02-06".data ) = some (2026, 2, 6) ∧
    ((weekMatches ( "2026-02-06".data ) ( "2026-W06".data ) = true ↔
        fileWeekLabel 2026 2 6 = "2026-W06".data) ∧
      fileWeekLabel 2026 2 6 = "2026-W06".data ∧
      fileWeekLabel 2026 2 13 = "2026-W07".data) :=
  ⟨by decide, c2_amended_calendar_year_label ( "2026-02-06".data ) ( "2026-W06".data )
    2026 2 6 (by decide)⟩

/-! ### C7: empty sentinels in the section parsers -/

/-- C7 counterexample: a blockers section of a daily-log document whose item
line is the sentinel none is NOT excluded by extract_section_bullets; the item
is returned. -/
theorem c7_counterexample_sentinel_kept :
    "none".data ∈ extractSectionBullets ( "**Blockers**:\n- none\n".data ) hdrBlockers := by
  decide

theorem getBlockersLines_no_sentinel (ls : List Str) : ∀ (b : Bool) (x : Str),
    x ∈ getBlockersLines b ls → toLowerStr x ∉ sentinels := by
  induction ls with
  | nil =>
    intro b x hx
    simp [getBlockersLines] at hx
  | cons l ls ih =>
    intro b x hx
    rw [getBlockersLines] at hx
    split at hx
    · exact ih true x hx
    · split at hx
      · simp at hx
      · split at hx
        · split at hx
          · split at hx
            · exact ih b x hx
            · rename_i hsent
              rcases List.mem_cons.mp hx with rfl | hx'
              · exact hsent
              · exact ih b x hx'
          · exact ih b x hx
        · exact ih b x hx

/-- C7 (amended): the standup blockers parser excludes every item whose text is
an accepted empty sentinel (none, parenthesised none, n/a) case-insensitively,
as the claim states; the daily-log bullet extractor of the vault writer,
however, excludes only the literal rendered marker line dash-underscore-None
and keeps the other sentinel spellings. -/
theorem c7_amended_sentinels_only_in_standup :
    (∀ content x, x ∈ getBlockersV2 content → toLowerStr x ∉ sentinels) ∧
    extractSectionBullets ( "**Blockers**:\n- _None_\n".data ) hdrBlockers = [] ∧
    getBlockersV2 ( "## Blockers\n- none\n- (None)\n- N/A\n- CI flaky\n".data ) =
      [ "CI flaky".data ] := by
  refine ⟨?_, by decide, by decide⟩
  intro content x hx
  exact getBlockersLines_no_sentinel (splitNL content) false x hx

/-- Witness for c7_amended_sentinels_only_in_standup: a concrete returned
blocker, with the membership hypothesis discharged by evaluation. -/
theorem c7_amended_sentinels_only_in_standup_witness :
    "CI flaky".data ∈ getBlockersV2 ( "## Blockers\n- CI flaky\n".data ) ∧
    toLowerStr ( "CI flaky".data ) ∉ sentinels :=
  ⟨by decide, c7_amended_sentinels_only_in_standup.1 ( "## Blockers\n- CI flaky\n".data )
    ( "CI flaky".data ) (by decide)⟩

/-! ### C5: write_daily is append-only -/

theorem writeDailyRun_from_some (p date : Str) (es : List (SessionExtract × Str)) :
    ∀ s, List.foldl (writeDailyStep p date) (some s) es =
      some (s ++ (es.map (fun e => renderDailyEntry p e.1 e.2)).flatten) := by
  induction es with
  | nil => intro s; simp
  | cons e es ih =>
    intro s
    rw [List.foldl_cons]
    show List.foldl (writeDailyStep p date)
      (some (s ++ renderDailyEntry p e.1 e.2)) es = _
    rw [ih]
    simp [List.append_assoc]

/-- C5: starting from no document, N write_daily calls for the same project
and date produce exactly the date header followed by the N rendered entries
in call order; the content after the first calls stays a prefix after further
calls (append-only); and every rendered entry begins with the horizontal-rule
separator. -/
theorem c5_write_daily_append_only (p date : Str) (es es2 : List (SessionExtract × Str))
    (h : es ≠ []) :
    writeDailyRun p date es =
      some (renderDailyHeader date ++ (es.map (fun e => renderDailyEntry p e.1 e.2)).flatten) ∧
    (∀ s s2, writeDailyRun p date es = some s →
      writeDailyRun p date (es ++ es2) = some s2 → s <+: s2) ∧
    (∀ e ∈ es, ( "\n---\n\n".data ) <+: renderDailyEntry p e.1 e.2) := by
  have hrun : ∀ (l : List (SessionExtract × Str)), l ≠ [] → writeDailyRun p date l =
      some (renderDailyHeader date ++ (l.map (fun e => renderDailyEntry p e.1 e.2)).flatten) := by
    intro l hl
    obtain ⟨e, l', rfl⟩ := List.exists_cons_of_ne_nil hl
    rw [writeDailyRun, List.foldl_cons]
    show List.foldl (writeDailyStep p date)
      (some (renderDailyHeader date ++ renderDailyEntry p e.1 e.2)) l' = _
    rw [writeDailyRun_from_some]
    simp [List.append_assoc]
  refine ⟨hrun es h, ?_, ?_⟩
  · intro s s2 hs hs2
    rw [hrun es h] at hs
    rw [hrun (es ++ es2) (by simp [h])] at hs2
    rw [← Option.some_inj.mp hs, ← Option.some_inj.mp hs2]
    rw [List.map_append, List.flatten_append, ← List.append_assoc]
    exact List.prefix_append _ _
  · intro e _
    rw [renderDailyEntry]
    exact List.IsPrefix.trans (by decide : ( "\n---\n\n".data ) <+: daA)
      (List.prefix_append daA _)

/-- Witness for c5_write_daily_append_only at one concrete session. -/
theorem c5_write_daily_append_only_witness :
    ([(c1Extract, ( "10:00".data ))] : List (SessionExtract × Str)) ≠ [] ∧
    writeDailyRun ( "Foo".data ) ( "2026-02-01".data ) [(c1Extract, ( "10:00".data ))] =
      some (renderDailyHeader ( "2026-02-01".data ) ++
        (([(c1Extract, ( "10:00".data ))].map
          (fun e => renderDailyEntry ( "Foo".data ) e.1 e.2)).flatten)) :=
  ⟨by simp, (c5_write_daily_append_only ( "Foo".data ) ( "2026-02-01".data )
    [(c1Extract, ( "10:00".data ))] [] (by simp)).1⟩

/-! ### C9: dashboard regeneration -/

/-- C9: the dashboard has exactly one row per project directory owning a
STATUS.md (projects without one contribute nothing), and when no project has a
STATUS.md the rendered dashboard body is the single no-projects placeholder
row. -/
theorem c9_dashboard_rows (entries : List (Str × Option (Str × Str))) (generated : Str) :
    (dashboardRows entries).length =
      (entries.filter (fun e => e.2.isSome)).length ∧
    ((∀ e ∈ entries, e.2 = none) →
      writeDashboard entries generated =
        dbA ++ (generated ++ (dbB ++ (noProjectsRow ++ stEnd)))) := by
  constructor
  · induction entries with
    | nil => rfl
    | cons e es ih =>
      cases he : e.2 with
      | none => simpa [dashboardRows, List.filterMap_cons, he, List.filter_cons] using ih
      | some cd => simpa [dashboardRows, List.filterMap_cons, he, List.filter_cons] using ih
  · intro hall
    have hrows : dashboardRows entries = [] := by
      rw [dashboardRows, List.filterMap_eq_nil_iff]
      intro e he
      rw [hall e he]
      rfl
    rw [writeDashboard, hrows, renderDashboard, if_pos rfl]

/-- Witness for c9_dashboard_rows with one project lacking a STATUS.md. -/
theorem c9_dashboard_rows_witness :
    (∀ e ∈ ([(( "Bar".data : Str), (none : Option (Str × Str)))]), e.2 = none) ∧
    writeDashboard [(( "Bar".data : Str), (none : Option (Str × Str)))] ( "now".data ) =
      dbA ++ (( "now".data ) ++ (dbB ++ (noProjectsRow ++ stEnd))) :=
  ⟨by simp, (c9_dashboard_rows [(( "Bar".data ), none)] ( "now".data )).2 (by simp)⟩

/-! ### Locating a section inside a rendered document -/

theorem sectionMarker_head (h : Str) : sectionMarker h = '#' :: (sectionMarker h).tail := rfl

theorem sectionMarker_ne_nil (h : Str) : sectionMarker h ≠ [] := by
  simp [sectionMarker]

theorem nlHH_head : nlHH = '\n' :: nlHH.tail := rfl

theorem takeUntil_body_gap {body hh z : Str} (hbody : '\n' ∉ body)
    (hhh : List.isPrefixOf ( "## ".data ) hh = true) :
    takeUntil [nlHH] (body ++ (( "\n\n".data ) ++ (hh ++ z))) = body ++ ('\n' :: []) := by
  rw [takeUntil_skip (fun t ht => by
    rw [List.mem_singleton] at ht
    rw [ht]
    exact blocksAll_of_head_not_mem nlHH_head hbody)]
  congr 1
  have hshape : ( "\n\n".data ) ++ (hh ++ z) = '\n' :: ('\n' :: (hh ++ z)) := rfl
  rw [hshape]
  have hs1 : stopsAt [nlHH] ('\n' :: ('\n' :: (hh ++ z))) = false := by
    rw [stopsAt]
    apply List.any_eq_false.mpr
    intro t ht
    rw [List.mem_singleton] at ht
    subst ht
    have h5 := isPrefixOf_append_false (t := nlHH) (a := ['\n', '\n']) (by decide) (hh ++ z)
    simp only [List.cons_append, List.nil_append] at h5
    simp only [h5]
    simp
  rw [takeUntil, if_neg (by simp only [hs1]; simp)]
  have hs2 : stopsAt [nlHH] ('\n' :: (hh ++ z)) = true := by
    rw [stopsAt]
    apply List.any_eq_true.mpr
    refine ⟨nlHH, by simp, ?_⟩
    have h3 : List.isPrefixOf ( "## ".data ) (hh ++ z) = true := isPrefixOf_append_true hhh z
    show List.isPrefixOf ('\n' :: ( "## ".data )) ('\n' :: (hh ++ z)) = true
    simp [List.isPrefixOf, h3]
  rw [takeUntil_stop hs2]

/-- Locate a rendered section: when the document consists of a marker-free
prefix, the section marker, a newline-free body, and the blank line before the
next second-level heading, the scraped section body is the stripped body. -/
theorem sectionBody_at {header pre body hh z : Str}
    (hpre : BlocksAll (sectionMarker header) pre)
    (hbody : '\n' ∉ body)
    (hhh : List.isPrefixOf ( "## ".data ) hh = true) :
    sectionBody header
      (pre ++ (sectionMarker header ++ (body ++ (( "\n\n".data ) ++ (hh ++ z))))) =
      some (pstrip body) := by
  rw [sectionBody, splitAtFirst_locate (sectionMarker_ne_nil header) hpre]
  rw [Option.map_some']
  congr 1
  rw [takeUntil_body_gap hbody hhh]
  apply pstrip_append_ws
  intro c hc
  rw [List.mem_singleton] at hc
  rw [hc]
  rfl

theorem sectionText_of_body {header content body : Str}
    (h : sectionBody header content = some body) (hb : body.head? ≠ some '_') :
    sectionText header content = body := by
  rw [sectionText, h, Option.map_some', if_neg hb, Option.getD_some]

theorem sectionText_of_body_underscore {header content body : Str}
    (h : sectionBody header content = some body) (hb : body.head? = some '_') :
    sectionText header content = [] := by
  rw [sectionText, h, Option.map_some', if_pos hb, Option.getD_some]

theorem sectionItems_of_missing {header content : Str}
    (h : splitAtFirst (sectionMarker header) content = none) :
    sectionItems header content = [] := by
  rw [sectionItems, sectionBody, h]
  rfl

/-! ### C4: Status/Phase round-trip through STATUS.md -/

def hdrCompletedToday : Str := "Completed Today".data

/-- A record whose status is a genuine non-empty single-line string beginning
with an underscore. -/
def c4Extract : SessionExtract :=
  { status := "_x".data, phase := "p".data, summary := [] }

/-- C4 counterexample: for the record with status underscore-x (a non-empty
single-line string), rendering the Status document and re-parsing it yields
the empty string, not the original status: the parser treats any body starting
with an underscore as an empty marker. -/
theorem c4_counterexample_underscore_status :
    c4Extract.status = "_x".data ∧
    ( "_x".data : Str) ≠ [] ∧
    '\n' ∉ ( "_x".data : Str) ∧
    (parseStatusFile (renderStatus ( "Foo".data ) c4Extract
      ( "2026-02-01 10:00".data ))).status = [] ∧
    (parseStatusFile (renderStatus ( "Foo".data ) c4Extract
      ( "2026-02-01 10:00".data ))).status ≠ c4Extract.status := by
  set_option maxRecDepth 100000 in decide

/-- C4 (amended): rendering then re-parsing the Status document returns the
status and phase unchanged for non-empty single-line values that are
whitespace-trimmed, do not begin with an underscore, and (like the project
name and timestamp) contain no hash character. -/
theorem c4_amended_roundtrip (p u : Str) (ex : SessionExtract)
    (hp : '#' ∉ p) (hu : '#' ∉ u)
    (hs : ex.status ≠ [] ∧ pstrip ex.status = ex.status ∧ '\n' ∉ ex.status ∧
      '#' ∉ ex.status ∧ ex.status.head? ≠ some '_')
    (hq : ex.phase ≠ [] ∧ pstrip ex.phase = ex.phase ∧ '\n' ∉ ex.phase ∧
      '#' ∉ ex.phase ∧ ex.phase.head? ≠ some '_') :
    (parseStatusFile (renderStatus p ex u)).status = ex.status ∧
    (parseStatusFile (renderStatus p ex u)).phase = ex.phase := by
  obtain ⟨hs0, hs1, hs2, hs3, hs4⟩ := hs
  obtain ⟨hq0, hq1, hq2, hq3, hq4⟩ := hq
  have hS : orUnknown ex.status = ex.status := by rw [orUnknown, if_neg hs0]
  have hQ : orNotSpecified ex.phase = ex.phase := by rw [orNotSpecified, if_neg hq0]
  have hC : stC = ( "\n\n".data ) ++ sectionMarker hdrStatus := by decide
  have hD : stD = ( "\n\n".data ) ++ sectionMarker hdrPhase := by decide
  have hE : stE = ( "\n\n".data ) ++ sectionMarker hdrCompletedToday := by decide
  have hdoc1 : renderStatus p ex u =
      (stA ++ (p ++ (stB ++ (u ++ ( "\n\n".data ))))) ++
      (sectionMarker hdrStatus ++ (ex.status ++ (( "\n\n".data ) ++
        (sectionMarker hdrPhase ++ (ex.phase ++ (stE ++ (renderCompletedSection ex ++
        (stF ++ (renderIssuesTable ex ++ (stG ++ (checkboxList ex.next_steps ++
        (stH ++ (bulletList ex.decisions ++ (stI ++ (bulletList ex.blockers ++
        (stJ ++ (bulletList ex.github_refs ++ (stK ++ (bulletList ex.notes ++
        stEnd))))))))))))))))))) := by
    simp only [renderStatus, hS, hQ, hC, hD, List.append_assoc]
  have hdoc2 : renderStatus p ex u =
      (stA ++ (p ++ (stB ++ (u ++ (stC ++ (ex.status ++ ( "\n\n".data ))))))) ++
      (sectionMarker hdrPhase ++ (ex.phase ++ (( "\n\n".data ) ++
        (sectionMarker hdrCompletedToday ++ (renderCompletedSection ex ++
        (stF ++ (renderIssuesTable ex ++ (stG ++ (checkboxList ex.next_steps ++
        (stH ++ (bulletList ex.decisions ++ (stI ++ (bulletList ex.blockers ++
        (stJ ++ (bulletList ex.github_refs ++ (stK ++ (bulletList ex.notes ++
        stEnd))))))))))))))))) := by
    simp only [renderStatus, hS, hQ, hD, hE, List.append_assoc]
  have hpre1 : BlocksAll (sectionMarker hdrStatus)
      (stA ++ (p ++ (stB ++ (u ++ ( "\n\n".data ))))) :=
    blocksAll_append (blocksAll_of_mismatchAll (by decide))
      (blocksAll_append (blocksAll_of_head_not_mem (sectionMarker_head _) hp)
        (blocksAll_append (blocksAll_of_mismatchAll (by decide))
          (blocksAll_append (blocksAll_of_head_not_mem (sectionMarker_head _) hu)
            (blocksAll_of_mismatchAll (by decide)))))
  have hpre2 : BlocksAll (sectionMarker hdrPhase)
      (stA ++ (p ++ (stB ++ (u ++ (stC ++ (ex.status ++ ( "\n\n".data ))))))) :=
    blocksAll_append (blocksAll_of_mismatchAll (by decide))
      (blocksAll_append (blocksAll_of_head_not_mem (sectionMarker_head _) hp)
        (blocksAll_append (blocksAll_of_mismatchAll (by decide))
          (blocksAll_append (blocksAll_of_head_not_mem (sectionMarker_head _) hu)
            (blocksAll_append (blocksAll_of_mismatchAll (by decide))
              (blocksAll_append (blocksAll_of_head_not_mem (sectionMarker_head _) hs3)
                (blocksAll_of_mismatchAll (by decide)))))))
  have hsec1 : sectionBody hdrStatus (renderStatus p ex u) = some ex.status := by
    rw [hdoc1]
    rw [show some ex.status = some (pstrip ex.status) from by rw [hs1]]
    exact sectionBody_at hpre1 hs2 (by decide)
  have hsec2 : sectionBody hdrPhase (renderStatus p ex u) = some ex.phase := by
    rw [hdoc2]
    rw [show some ex.phase = some (pstrip ex.phase) from by rw [hq1]]
    exact sectionBody_at hpre2 hq2 (by decide)
  constructor
  · show sectionText hdrStatus (renderStatus p ex u) = ex.status
    exact sectionText_of_body hsec1 hs4
  · show sectionText hdrPhase (renderStatus p ex u) = ex.phase
    exact sectionText_of_body hsec2 hq4

/-- Witness for c4_amended_roundtrip at a concrete record. -/
theorem c4_amended_roundtrip_witness :
    ('#' ∉ ( "Foo".data : Str)) ∧
    ('#' ∉ ( "2026-02-01 10:00".data : Str)) ∧
    (c1Extract.status ≠ [] ∧ pstrip c1Extract.status = c1Extract.status ∧
      '\n' ∉ c1Extract.status ∧ '#' ∉ c1Extract.status ∧
      c1Extract.status.head? ≠ some '_') ∧
    (c1Extract.phase ≠ [] ∧ pstrip c1Extract.phase = c1Extract.phase ∧
      '\n' ∉ c1Extract.phase ∧ '#' ∉ c1Extract.phase ∧
      c1Extract.phase.head? ≠ some '_') ∧
    ((parseStatusFile (renderStatus ( "Foo".data ) c1Extract
        ( "2026-02-01 10:00".data ))).status = c1Extract.status ∧
      (parseStatusFile (renderStatus ( "Foo".data ) c1Extract
        ( "2026-02-01 10:00".data ))).phase = c1Extract.phase) :=
  ⟨by decide, by decide, by decide, by decide,
    c4_amended_roundtrip ( "Foo".data ) ( "2026-02-01 10:00".data ) c1Extract
      (by decide) (by decide) (by decide) (by decide)⟩

/-! ### C8: empty-record rendering -/

theorem isInfix_append_left (x : Str) {l y : Str} (h : l <:+: y) : l <:+: x ++ y := by
  obtain ⟨s, t, rfl⟩ := h
  exact ⟨x ++ s, t, by simp [List.append_assoc]⟩

theorem isInfix_gap {g body cnext rest : Str} (hhead : cnext.head? = some '\n') :
    (g ++ (body ++ ('\n' :: []))) <:+: g ++ (body ++ (cnext ++ rest)) := by
  obtain ⟨ct, rfl⟩ : ∃ ct, cnext = '\n' :: ct := by
    cases cnext with
    | nil => simp at hhead
    | cons c cs =>
      simp at hhead
      exact ⟨cs, by rw [hhead]⟩
  refine ⟨[], ct ++ rest, ?_⟩
  simp [List.append_assoc]

/-- C8: an extraction record with every sequence field empty renders a Status
document that still contains every fixed section heading, and every list
section renders the explicit none marker directly under its heading, never an
omitted heading. -/
theorem c8_empty_record_sections (p u : Str) (ex : SessionExtract)
    (h1 : ex.completed = []) (h2 : ex.completed_groups = []) (h3 : ex.next_steps = [])
    (h4 : ex.decisions = []) (h5 : ex.blockers = []) (h6 : ex.github_refs = [])
    (h7 : ex.notes = []) :
    (sectionMarker hdrStatus <:+: renderStatus p ex u) ∧
    (sectionMarker hdrPhase <:+: renderStatus p ex u) ∧
    (( "## Issues\n".data ) <:+: renderStatus p ex u) ∧
    (( "\n\n## Completed Today\n_None_\n".data ) <:+: renderStatus p ex u) ∧
    (( "\n\n## Follow-up\n_None_\n".data ) <:+: renderStatus p ex u) ∧
    (( "\n\n## Decisions\n_None_\n".data ) <:+: renderStatus p ex u) ∧
    (( "\n\n## Blockers\n_None_\n".data ) <:+: renderStatus p ex u) ∧
    (( "\n\n## GitHub References\n_None_\n".data ) <:+: renderStatus p ex u) ∧
    (( "\n\n## Notes\n_None_\n".data ) <:+: renderStatus p ex u) := by
  have hcs : renderCompletedSection ex = noneLit := by
    rw [renderCompletedSection, if_neg (by simp [h2]), if_neg (by simp [h1])]
  have hns : checkboxList ex.next_steps = noneLit := by rw [h3, checkboxList, if_pos rfl]
  have hdec : bulletList ex.decisions = noneLit := by rw [h4, bulletList, if_pos rfl]
  have hblk : bulletList ex.blockers = noneLit := by rw [h5, bulletList, if_pos rfl]
  have hgh : bulletList ex.github_refs = noneLit := by rw [h6, bulletList, if_pos rfl]
  have hnt : bulletList ex.notes = noneLit := by rw [h7, bulletList, if_pos rfl]
  have hr : renderStatus p ex u =
      stA ++ (p ++ (stB ++ (u ++ (stC ++ (orUnknown ex.status ++ (stD ++
        (orNotSpecified ex.phase ++ (stE ++ (noneLit ++ (stF ++
        (renderIssuesTable ex ++ (stG ++ (noneLit ++ (stH ++ (noneLit ++
        (stI ++ (noneLit ++ (stJ ++ (noneLit ++ (stK ++ (noneLit ++
        stEnd))))))))))))))))))))) := by
    simp only [renderStatus, hcs, hns, hdec, hblk, hgh, hnt]
  refine ⟨?_, ?_, ?_, ?_, ?_, ?_, ?_, ?_, ?_⟩
  · rw [hr]
    iterate 4 apply isInfix_append_left
    rw [show stC = ( "\n\n".data ) ++ sectionMarker hdrStatus from by decide,
      List.append_assoc]
    apply isInfix_append_left
    exact (List.prefix_append _ _).isInfix
  · rw [hr]
    iterate 6 apply isInfix_append_left
    rw [show stD = ( "\n\n".data ) ++ sectionMarker hdrPhase from by decide,
      List.append_assoc]
    apply isInfix_append_left
    exact (List.prefix_append _ _).isInfix
  · rw [hr]
    iterate 10 apply isInfix_append_left
    rw [show stF = ( "\n\n".data ) ++ ( "## Issues\n".data ) from by decide,
      List.append_assoc]
    apply isInfix_append_left
    exact (List.prefix_append _ _).isInfix
  · rw [hr, show ( "\n\n## Completed Today\n_None_\n".data ) =
      stE ++ (noneLit ++ ('\n' :: [])) from by decide]
    iterate 8 apply isInfix_append_left
    exact isInfix_gap (by decide)
  · rw [hr, show ( "\n\n## Follow-up\n_None_\n".data ) =
      stG ++ (noneLit ++ ('\n' :: [])) from by decide]
    iterate 12 apply isInfix_append_left
    exact isInfix_gap (by decide)
  · rw [hr, show ( "\n\n## Decisions\n_None_\n".data ) =
      stH ++ (noneLit ++ ('\n' :: [])) from by decide]
    iterate 14 apply isInfix_append_left
    exact isInfix_gap (by decide)
  · rw [hr, show ( "\n\n## Blockers\n_None_\n".data ) =
      stI ++ (noneLit ++ ('\n' :: [])) from by decide]
    iterate 16 apply isInfix_append_left
    exact isInfix_gap (by decide)
  · rw [hr, show ( "\n\n## GitHub References\n_None_\n".data ) =
      stJ ++ (noneLit ++ ('\n' :: [])) from by decide]
    iterate 18 apply isInfix_append_left
    exact isInfix_gap (by decide)
  · rw [hr, show ( "\n\n## Notes\n_None_\n".data ) =
      stK ++ (noneLit ++ stEnd) from by decide]
    iterate 20 apply isInfix_append_left
    exact List.infix_rfl

/-- The concrete record of the C8 witness: scalar fields set, every sequence
field left at its empty default. -/
def c8Extract : SessionExtract :=
  { status := "Working".data, phase := "Build".data, summary := [] }

/-- Witness for c8_empty_record_sections. -/
theorem c8_empty_record_sections_witness :
    c8Extract.completed = [] ∧ c8Extract.completed_groups = [] ∧
    c8Extract.next_steps = [] ∧ c8Extract.decisions = [] ∧ c8Extract.blockers = [] ∧
    c8Extract.github_refs = [] ∧ c8Extract.notes = [] ∧
    (( "\n\n## Decisions\n_None_\n".data ) <:+:
      renderStatus ( "Foo".data ) c8Extract ( "now".data )) :=
  ⟨rfl, rfl, rfl, rfl, rfl, rfl, rfl,
    (c8_empty_record_sections ( "Foo".data ) ( "now".data ) c8Extract
      rfl rfl rfl rfl rfl rfl rfl).2.2.2.2.2.1⟩

/-! ### C10: an underscore prefix masks the Status or Phase field -/

/-- C10: for every STATUS.md document whose parsed Status (respectively Phase)
section body begins with an underscore, parse_status_file returns the empty
string for that field, and the dashboard row rendered from the parse shows the
em-dash placeholder in that column while the other columns are whatever the
document parses to; and the masking hits genuine values: for every record
whose status (respectively phase) is a non-empty, single-line,
whitespace-trimmed string beginning with an underscore, rendered with a
hash-free project name and timestamp (and for the phase case a hash-free
status), the rendered Status document parses that field back as the empty
string, whatever the other fields of the record hold. -/
theorem c10_underscore_masks_field :
    (∀ content name updated body,
      sectionBody hdrStatus content = some body → body.head? = some '_' →
        (parseStatusFile content).status = [] ∧
        renderDashboardRow name (parseStatusFile content) updated =
          "| ".data ++ (name ++ (" | ".data ++ (emDash ++ (" | ".data ++
            ((if (parseStatusFile content).phase = [] then emDash
              else (parseStatusFile content).phase) ++
            (" | ".data ++ (firstOr (parseStatusFile content).next_steps ++
            (" | ".data ++ (updated ++ " |".data)))))))))) ∧
    (∀ content name updated body,
      sectionBody hdrPhase content = some body → body.head? = some '_' →
        (parseStatusFile content).phase = [] ∧
        renderDashboardRow name (parseStatusFile content) updated =
          "| ".data ++ (name ++ (" | ".data ++
            ((if (parseStatusFile content).status = [] then emDash
              else (parseStatusFile content).status) ++
            (" | ".data ++ (emDash ++
            (" | ".data ++ (firstOr (parseStatusFile content).next_steps ++
            (" | ".data ++ (updated ++ " |".data)))))))))) ∧
    (∀ p u ex, '#' ∉ p → '#' ∉ u →
      ex.status ≠ [] → pstrip ex.status = ex.status → '\n' ∉ ex.status →
      '#' ∉ ex.status → ex.status.head? = some '_' →
        (parseStatusFile (renderStatus p ex u)).status = []) ∧
    (∀ p u ex, '#' ∉ p → '#' ∉ u → '#' ∉ ex.status →
      ex.phase ≠ [] → pstrip ex.phase = ex.phase → '\n' ∉ ex.phase →
      ex.phase.head? = some '_' →
        (parseStatusFile (renderStatus p ex u)).phase = []) := by
  refine ⟨?_, ?_, ?_, ?_⟩
  · intro content name updated body hsec hhead
    have hst : (parseStatusFile content).status = [] := by
      show sectionText hdrStatus content = []
      exact sectionText_of_body_underscore hsec hhead
    refine ⟨hst, ?_⟩
    simp only [renderDashboardRow, hst, if_pos rfl, if_true, eq_self_iff_true]
  · intro content name updated body hsec hhead
    have hph : (parseStatusFile content).phase = [] := by
      show sectionText hdrPhase content = []
      exact sectionText_of_body_underscore hsec hhead
    refine ⟨hph, ?_⟩
    simp only [renderDashboardRow, hph, if_pos rfl, if_true, eq_self_iff_true]
  · intro p u ex hp hu hs0 hs1 hs2 hs3 hs4
    have hS : orUnknown ex.status = ex.status := by rw [orUnknown, if_neg hs0]
    have hC : stC = ( "\n\n".data ) ++ sectionMarker hdrStatus := by decide
    have hD : stD = ( "\n\n".data ) ++ sectionMarker hdrPhase := by decide
    have hdoc1 : renderStatus p ex u =
        (stA ++ (p ++ (stB ++ (u ++ ( "\n\n".data ))))) ++
        (sectionMarker hdrStatus ++ (ex.status ++ (( "\n\n".data ) ++
          (sectionMarker hdrPhase ++ (orNotSpecified ex.phase ++
          (stE ++ (renderCompletedSection ex ++
          (stF ++ (renderIssuesTable ex ++ (stG ++ (checkboxList ex.next_steps ++
          (stH ++ (bulletList ex.decisions ++ (stI ++ (bulletList ex.blockers ++
          (stJ ++ (bulletList ex.github_refs ++ (stK ++ (bulletList ex.notes ++
          stEnd))))))))))))))))))) := by
      simp only [renderStatus, hS, hC, hD, List.append_assoc]
    have hpre1 : BlocksAll (sectionMarker hdrStatus)
        (stA ++ (p ++ (stB ++ (u ++ ( "\n\n".data ))))) :=
      blocksAll_append (blocksAll_of_mismatchAll (by decide))
        (blocksAll_append (blocksAll_of_head_not_mem (sectionMarker_head _) hp)
          (blocksAll_append (blocksAll_of_mismatchAll (by decide))
            (blocksAll_append (blocksAll_of_head_not_mem (sectionMarker_head _) hu)
              (blocksAll_of_mismatchAll (by decide)))))
    have hsec1 : sectionBody hdrStatus (renderStatus p ex u) = some ex.status := by
      rw [hdoc1]
      rw [show some ex.status = some (pstrip ex.status) from by rw [hs1]]
      exact sectionBody_at hpre1 hs2 (by decide)
    show sectionText hdrStatus (renderStatus p ex u) = []
    exact sectionText_of_body_underscore hsec1 hs4
  · intro p u ex hp hu hst3 hq0 hq1 hq2 hq4
    have hQ : orNotSpecified ex.phase = ex.phase := by rw [orNotSpecified, if_neg hq0]
    have hD : stD = ( "\n\n".data ) ++ sectionMarker hdrPhase := by decide
    have hE : stE = ( "\n\n".data ) ++ sectionMarker hdrCompletedToday := by decide
    have hors : '#' ∉ orUnknown ex.status := by
      by_cases hse : ex.status = []
      · rw [orUnknown, if_pos hse]
        decide
      · rw [orUnknown, if_neg hse]
        exact hst3
    have hdoc2 : renderStatus p ex u =
        (stA ++ (p ++ (stB ++ (u ++ (stC ++ (orUnknown ex.status ++
          ( "\n\n".data ))))))) ++
        (sectionMarker hdrPhase ++ (ex.phase ++ (( "\n\n".data ) ++
          (sectionMarker hdrCompletedToday ++ (renderCompletedSection ex ++
          (stF ++ (renderIssuesTable ex ++ (stG ++ (checkboxList ex.next_steps ++
          (stH ++ (bulletList ex.decisions ++ (stI ++ (bulletList ex.blockers ++
          (stJ ++ (bulletList ex.github_refs ++ (stK ++ (bulletList ex.notes ++
          stEnd))))))))))))))))) := by
      simp only [renderStatus, hQ, hD, hE, List.append_assoc]
    have hpre2 : BlocksAll (sectionMarker hdrPhase)
        (stA ++ (p ++ (stB ++ (u ++ (stC ++ (orUnknown ex.status ++
          ( "\n\n".data ))))))) :=
      blocksAll_append (blocksAll_of_mismatchAll (by decide))
        (blocksAll_append (blocksAll_of_head_not_mem (sectionMarker_head _) hp)
          (blocksAll_append (blocksAll_of_mismatchAll (by decide))
            (blocksAll_append (blocksAll_of_head_not_mem (sectionMarker_head _) hu)
              (blocksAll_append (blocksAll_of_mismatchAll (by decide))
                (blocksAll_append (blocksAll_of_head_not_mem (sectionMarker_head _) hors)
                  (blocksAll_of_mismatchAll (by decide)))))))
    have hsec2 : sectionBody hdrPhase (renderStatus p ex u) = some ex.phase := by
      rw [hdoc2]
      rw [show some ex.phase = some (pstrip ex.phase) from by rw [hq1]]
      exact sectionBody_at hpre2 hq2 (by decide)
    show sectionText hdrPhase (renderStatus p ex u) = []
    exact sectionText_of_body_underscore hsec2 hq4

/-- A handwritten STATUS.md with an underscore-prefixed Status body and a
non-empty Decisions section, for the C10 witness. -/
def c10Doc : Str :=
  ("# Foo\n\n## Status\n_draft\n\n## Phase\nBuild\n\n## Decisions\n- pick SQLite\n").data

/-- A record whose phase is a genuine non-empty string beginning with an
underscore, for the C10 witness. -/
def c10PhaseExtract : SessionExtract :=
  { status := "Working".data, phase := "_beta".data, summary := [] }

/-- Witness for c10_underscore_masks_field: the general Status branch at a
document with non-empty sections, and the rendered-pipeline Phase branch at a
record with an underscore-prefixed genuine phase. -/
theorem c10_underscore_masks_field_witness :
    (sectionBody hdrStatus c10Doc = some ( "_draft".data ) ∧
      ( "_draft".data : Str).head? = some '_' ∧
      (parseStatusFile c10Doc).status = []) ∧
    (c10PhaseExtract.phase ≠ [] ∧ c10PhaseExtract.phase.head? = some '_' ∧
      (parseStatusFile (renderStatus ( "Foo".data ) c10PhaseExtract
        ( "2026-02-01 10:00".data ))).phase = []) :=
  ⟨⟨by decide, by decide,
      (c10_underscore_masks_field.1 c10Doc ( "Foo".data ) ( "d".data )
        ( "_draft".data ) (by decide) (by decide)).1⟩,
    ⟨by decide, by decide,
      c10_underscore_masks_field.2.2.2 ( "Foo".data ) ( "2026-02-01 10:00".data )
        c10PhaseExtract (by decide) (by decide) (by decide) (by decide) (by decide)
        (by decide) (by decide)⟩⟩
